import Mathlib

/-!
Verification development for the micro_temp microscope-automation repository.

The definitions below are a shallow embedding of the Python source:
* `src/Autofocus.py` / `src/autofocus.py` — z-scan sweep and the
  Amplitude (maximize) / Phase (minimize) focus selection loops;
* `src/base_cell_aquisition.py` — `CustomCellAcquisition`
  (`acquire_cell`, `compensate_movement`, `calculate_displacement`);
* `src/scaling.py` — assembly of the 2×2 stage↔pixel calibration matrix
  from `np.arctan2` / `cos` / `sin` and `predict_stage_movement`.

Machine floats are modelled as exact rationals (control flow, comparisons)
or exact reals (trigonometry); Python exceptions are modelled with an
explicit error type and `Except`.
-/

/-- Python exceptions that the modelled code can raise.  The source defines
no custom exception classes, so only builtin/library exceptions appear:
`AttributeError` (reading a never-assigned attribute), `ValueError`
(explicit `raise ValueError(...)`), `TypeError` (subscripting `None`), and
OpenCV's `cv2.error` (failed internal assertion). -/
inductive PyErr where
  | attributeError : String → PyErr
  | valueError : String → PyErr
  | typeError : PyErr
  | cvError : String → PyErr
deriving DecidableEq

/-! ## Z-scan sweep (`Autofocus.zscan`, both revisions)

`np.arange(start, end, step)`: end-exclusive, `⌈(end − start)/step⌉`
values `start + i·step` (empty for `step = 0`, where numpy would raise). -/

/-- `np.arange start stop step` as a list of rationals. -/
def arange (start stop step : ℚ) : List ℚ :=
  if step = 0 then []
  else (List.range (⌈(stop - start) / step⌉).toNat).map
    (fun i => start + (i : ℚ) * step)

/-- The capture/move loop of `zscan`:
`for i, z_val in enumerate(np.arange(start, end, step)): capture(); stage.move(z=z_val)`.
The first component of each recorded pair is the axis position the frame
was actually captured at (the position *before* this iteration's
`stage.move(z=z_val)`); the second is the commanded position `z_val` the
frame is recorded against.  `ok i` models whether capture `i` succeeded
(a failed capture is logged and skipped). -/
def zscanLoop (z : ℚ) (zs : List ℚ) (ok : ℕ → Bool) (i : ℕ) : List (ℚ × ℚ) :=
  match zs with
  | [] => []
  | zv :: rest =>
    (if ok i then [(z, zv)] else []) ++ zscanLoop zv rest ok (i + 1)

/-- `zscan` of `src/autofocus.py` (lowercase revision): moves the axis to
`start` before the sweep, then runs the capture/move loop.  Returns the
list of (axis position at capture, recorded commanded position) pairs. -/
def zscan_lower (start stop step : ℚ) (ok : ℕ → Bool) : List (ℚ × ℚ) :=
  zscanLoop start (arange start stop step) ok 0

/-- `zscan` of `src/Autofocus.py` (capitalized revision): identical loop but
with **no** initial move to `start`; the axis starts at `initZ`, wherever
the stage was before the scan. -/
def zscan_capital (initZ start stop step : ℚ) (ok : ℕ → Bool) : List (ℚ × ℚ) :=
  zscanLoop initZ (arange start stop step) ok 0

/-! ## Focus metric and selection loops (`Amplitude.focus`, `Phase.focus`)

Per capture: `mean = np.mean(image)`; skip if `mean == 0`; otherwise
`norm_var = std*std/mean` (population variance over mean). -/

/-- `np.mean` of a pixel list. -/
def pixelMean (l : List ℚ) : ℚ := l.sum / (l.length : ℚ)

/-- `np.std(image)**2`: population variance, mean of squares minus squared
mean. -/
def pixelVar (l : List ℚ) : ℚ :=
  (l.map (fun x => x * x)).sum / (l.length : ℚ) - pixelMean l * pixelMean l

/-- The focus score `norm_var = std * std / mean` of one frame. -/
def normVar (l : List ℚ) : ℚ := pixelVar l / pixelMean l

/-- The selection loop of `Amplitude.focus` over the per-capture score
results (`none` = frame skipped: zero mean or a read error), carrying the
running `max_var`/`max_index` state, initialized to `(-1, -1)`; the update
fires on the strict comparison `norm_var > max_var`. -/
def ampLoop (scores : List (Option ℚ)) (mv : ℚ) (mi : ℤ) (i : ℕ) : ℤ :=
  match scores with
  | [] => mi
  | none :: rest => ampLoop rest mv mi (i + 1)
  | some v :: rest =>
    if mv < v then ampLoop rest v (i : ℤ) (i + 1) else ampLoop rest mv mi (i + 1)

/-- The selection loop of `Phase.focus`: running `min_var`/`min_index`
initialized to `(1e10, -1)`; update fires on strict `norm_var < min_var`. -/
def phaseLoop (scores : List (Option ℚ)) (mv : ℚ) (mi : ℤ) (i : ℕ) : ℤ :=
  match scores with
  | [] => mi
  | none :: rest => phaseLoop rest mv mi (i + 1)
  | some v :: rest =>
    if v < mv then phaseLoop rest v (i : ℤ) (i + 1) else phaseLoop rest mv mi (i + 1)

/-- `Amplitude.focus` result position: `self.start + self.step * max_index`
(in `src/Autofocus.py`), computed from the per-capture score results. -/
def amplitudeFocusPos (start step : ℚ) (scores : List (Option ℚ)) : ℚ :=
  start + step * ((ampLoop scores (-1) (-1) 0 : ℤ) : ℚ)

/-- `Phase.focus` result position: `self.start + self.step * min_index`. -/
def phaseFocusPos (start step : ℚ) (scores : List (Option ℚ)) : ℚ :=
  start + step * ((phaseLoop scores (10 ^ 10) (-1) 0 : ℤ) : ℚ)

/-! ## `np.arctan2` and the 2×2 calibration matrix (`src/scaling.py`)

`np.arctan2(y, x)` is the angle of the point `(x, y)`; it is embedded as
the complex argument of `x + y·i` (same cosine and sine at every input,
including the `x = 0` rays and the origin). -/

/-- `np.arctan2 y x` as the argument of the complex number `⟨x, y⟩`. -/
noncomputable def arctan2 (y x : ℝ) : ℝ := Complex.arg ⟨x, y⟩

/-- A 2×2 real matrix `[[a, b], [c, d]]` as assembled by `scaling.py`. -/
structure Mat2 where
  a : ℝ
  b : ℝ
  c : ℝ
  d : ℝ

/-- Determinant of a 2×2 matrix (`np.linalg.inv` succeeds iff it is
non-zero). -/
def Mat2.det (m : Mat2) : ℝ := m.a * m.d - m.b * m.c

/-- `np.linalg.inv` of a 2×2 matrix (adjugate over determinant). -/
noncomputable def Mat2.inv (m : Mat2) : Mat2 :=
  ⟨m.d / m.det, -m.b / m.det, -m.c / m.det, m.a / m.det⟩

/-- `a = actual_shift_x / stage_shift_x` in `scaling.py`. -/
noncomputable def a_coef (mx sx : ℝ) : ℝ := mx / sx

/-- `c = actual_shift_y / stage_shift_x` in `scaling.py`. -/
noncomputable def c_coef (my sx : ℝ) : ℝ := my / sx

/-- `theta = np.arctan2(c, a)` in `scaling.py`. -/
noncomputable def theta_coef (mx my sx : ℝ) : ℝ :=
  arctan2 (c_coef my sx) (a_coef mx sx)

/-- `M = a / np.cos(theta)` in `scaling.py` (uniform scale). -/
noncomputable def M_coef (mx my sx : ℝ) : ℝ :=
  a_coef mx sx / Real.cos (theta_coef mx my sx)

/-- The calibration-matrix assembly of `scaling.py` from the measured pixel
shift `(mx, my)` and the commanded stage x-shift `sx`:
`b = -M·sin(theta)`, `d = M·cos(theta)`, giving `[[a, b], [c, d]]`. -/
noncomputable def assembled (mx my sx : ℝ) : Mat2 :=
  ⟨a_coef mx sx,
   -M_coef mx my sx * Real.sin (theta_coef mx my sx),
   c_coef my sx,
   M_coef mx my sx * Real.cos (theta_coef mx my sx)⟩

/-- `predict_stage_movement(px, py) = inv([[a,b],[c,d]]) · (px, py)`. -/
noncomputable def predict_stage_movement (m : Mat2) (px py : ℝ) : ℝ × ℝ :=
  (m.inv.a * px + m.inv.b * py, m.inv.c * px + m.inv.d * py)

/-! ## Displacement estimation (`CustomCellAcquisition.calculate_displacement`)

SIFT keypoints, FLANN matching and RANSAC are external OpenCV algorithms;
they enter the embedding as data (the match list with its two nearest
distances per match) and as an oracle (`fit`, the homography returned by
`cv2.findHomography`, `none` when the robust fit fails).  What the source
itself computes — the 0.7 ratio test, the implicit ≥ 4 points requirement
of `cv2.findHomography`, and the read-out of `M[0,2]`, `M[1,2]`,
`arctan2(M[1,0], M[0,0])·180/π` — is embedded exactly. -/

/-- One `knnMatch` result: the distances of the best and second-best
descriptor match. -/
structure MatchPair where
  best : ℚ
  second : ℚ
deriving DecidableEq

/-- The ratio-test loop: keep `m` iff `m.distance < 0.7 * n.distance`. -/
def good_matches (ms : List MatchPair) : List MatchPair :=
  match ms with
  | [] => []
  | m :: rest =>
    if m.best < 7 / 10 * m.second then m :: good_matches rest
    else good_matches rest

/-- A 3×3 homography as returned by `cv2.findHomography` (entries as exact
rationals). -/
def Hom : Type := Fin 3 → Fin 3 → ℚ

/-- `calculate_displacement` after the matcher: ratio test, then
`cv2.findHomography` (which fails with an internal OpenCV assertion,
`cv2.error`, when given fewer than 4 point pairs, and returns `None` when
the robust fit itself fails), then the unconditional read-out
`dx = M[0,2]`, `dy = M[1,2]`, `rotation = arctan2(M[1,0], M[0,0])·180/π` —
subscripting `None` raises `TypeError`. -/
noncomputable def calculate_displacement
    (fit : List MatchPair → Option Hom) (ms : List MatchPair) :
    Except PyErr (ℚ × ℚ × ℝ) :=
  let gm := good_matches ms
  if gm.length < 4 then
    Except.error (PyErr.cvError "findHomography: need at least 4 point pairs")
  else
    match fit gm with
    | none => Except.error PyErr.typeError
    | some M =>
      Except.ok (M 0 2, M 1 2, arctan2 (M 1 0 : ℚ) (M 0 0 : ℚ) * 180 / Real.pi)

/-! ## Cell acquisition (`CustomCellAcquisition`) -/

/-- The XY stage position. -/
structure Stage2 where
  x : ℚ
  y : ℚ
deriving DecidableEq

/-- The attribute state a `CustomCellAcquisition` instance can be in.
`x_model`/`y_model` use two `Option` layers: the outer layer is whether
the attribute has ever been assigned at all (Python raises
`AttributeError` otherwise), the inner layer is the `None`-vs-fitted-model
distinction the `compensate_movement` guard tests for. -/
structure CellAcq where
  image_width : ℤ
  image_height : ℤ
  image_center : ℤ × ℤ
  pixel_to_um_ratio_x : ℚ
  pixel_to_um_ratio_y : ℚ
  x_model : Option (Option (ℚ → ℚ))
  y_model : Option (Option (ℚ → ℚ))

/-- The state after `CustomCellAcquisition.__init__`: the geometry and
ratio attributes are assigned, `x_model`/`y_model` are **never** assigned
(neither in `__init__` nor in `calibrate`). -/
def CellAcq.init : CellAcq :=
  { image_width := 680
    image_height := 510
    image_center := (680 / 2, 510 / 2)
    pixel_to_um_ratio_x := 3 / 10
    pixel_to_um_ratio_y := 3 / 10
    x_model := none
    y_model := none }

/-- `compensate_movement(target_dx, target_dy)`.  The guard
`if self.x_model is None or self.y_model is None: raise ValueError(...)`
is evaluated left to right with Python short-circuiting; reading a
never-assigned attribute raises `AttributeError` before the guard can
fire.  The Nelder–Mead minimization over the fitted models is an external
scipy routine, taken as the oracle `opt` (objective, start point ↦
minimizer).  On success the state is returned unchanged (the method
assigns no attribute). -/
def compensate_movement (opt : ((ℚ × ℚ) → ℚ) → (ℚ × ℚ) → ℚ × ℚ)
    (s : CellAcq) (target_dx target_dy : ℚ) :
    Except PyErr ((ℚ × ℚ) × CellAcq) :=
  match s.x_model with
  | none => Except.error (PyErr.attributeError "x_model")
  | some none =>
    Except.error (PyErr.valueError "Compensator not calibrated. Run calibrate() first.")
  | some (some fx) =>
    match s.y_model with
    | none => Except.error (PyErr.attributeError "y_model")
    | some none =>
      Except.error (PyErr.valueError "Compensator not calibrated. Run calibrate() first.")
    | some (some fy) =>
      Except.ok
        (opt (fun p => (fx p.1 - target_dx) ^ 2 + (fy p.2 - target_dy) ^ 2)
          (target_dx, target_dy), s)

/-- `calculate_pixel_distance(coordinates)`: image center minus the given
pixel coordinates, with center `(680 // 2, 510 // 2) = (340, 255)`. -/
def calculate_pixel_distance (coords : ℤ × ℤ) : ℤ × ℤ :=
  (680 / 2 - coords.1, 510 / 2 - coords.2)

/-- The stage position after the first move of `acquire_cell`: the pixel
offset to the target scaled by `0.3 µm/px`, added to the initial
position. -/
def firstMove (st : Stage2) (coords : ℤ × ℤ) : Stage2 :=
  ⟨st.x + ((calculate_pixel_distance coords).1 : ℚ) * (3 / 10),
   st.y + ((calculate_pixel_distance coords).2 : ℚ) * (3 / 10)⟩

/-- `acquire_cell(cell_coordinates)` over an abstract image type:
`capture` is the camera, `findCenter` is `find_cell_center` (an OpenCV
contour search, `None` when no centroid is found), `drawCross` is the
`cv2.line` overlay.  First move toward the target, capture, try to
relocate the cell; **if** a center was found apply one 50%-damped
fine-tune move and recapture, otherwise silently keep the first capture;
finally draw the cross and return the image with the final stage
position.  No exception is raised on a lost cell. -/
def acquire_cell {Img : Type} (capture : Stage2 → Img)
    (findCenter : Img → Option (ℤ × ℤ)) (drawCross : Img → Img)
    (st : Stage2) (coords : ℤ × ℤ) : Except PyErr (Img × Stage2) :=
  let st1 := firstMove st coords
  let image := capture st1
  match findCenter image with
  | some c =>
    let d := calculate_pixel_distance c
    let st2 : Stage2 :=
      ⟨st1.x + (d.1 : ℚ) * (3 / 10) * (1 / 2), st1.y + (d.2 : ℚ) * (3 / 10) * (1 / 2)⟩
    Except.ok (drawCross (capture st2), st2)
  | none => Except.ok (drawCross image, st1)

/-! ## Helper lemmas -/

/-- Evaluation helper: the positions visited by `arange 1000 1010 1`. -/
lemma arange_1000_1010_1 : arange 1000 1010 1 =
    [1000, 1001, 1002, 1003, 1004, 1005, 1006, 1007, 1008, 1009] := by
  rw [arange]
  norm_num
  rw [show ((10 : ℤ).toNat) = 10 from rfl]
  simp only [List.range_succ, List.range_zero, List.map_append, List.map_cons,
    List.map_nil, List.nil_append, List.cons_append]
  norm_num

/-- Evaluation helper: the positions visited by `arange 0 3 1`. -/
lemma arange_0_3_1 : arange 0 3 1 = [0, 1, 2] := by
  rw [arange]
  norm_num
  rw [show ((3 : ℤ).toNat) = 3 from rfl]
  simp only [List.range_succ, List.range_zero, List.map_append, List.map_cons,
    List.map_nil, List.nil_append, List.cons_append]
  norm_num

/-- Once the running maximum is at least every remaining score, the
`Amplitude.focus` loop never updates its index again. -/
lemma ampLoop_const (l : List ℚ) (mv : ℚ) (mi : ℤ) (i : ℕ)
    (h : ∀ x ∈ l, x ≤ mv) : ampLoop (l.map some) mv mi i = mi := by
  induction l generalizing i with
  | nil => rfl
  | cons a rest ih =>
    simp only [List.map_cons, ampLoop]
    rw [if_neg (not_lt.mpr (h a (List.mem_cons_self a rest)))]
    exact ih (i + 1) (fun x hx => h x (List.mem_cons_of_mem a hx))

/-- The `Amplitude.focus` loop lands on the first index attaining the
maximal score, provided the running maximum starts below it. -/
lemma ampLoop_first_max (l : List ℚ) (k : ℕ) (m mv : ℚ) (mi : ℤ) (i : ℕ)
    (hk : l.get? k = some m) (hmax : ∀ x ∈ l, x ≤ m)
    (hfirst : ∀ x ∈ l.take k, x < m) (hmv : mv < m) :
    ampLoop (l.map some) mv mi i = (i : ℤ) + (k : ℤ) := by
  induction l generalizing k mv mi i with
  | nil => simp at hk
  | cons a rest ih =>
    cases k with
    | zero =>
      have hm : a = m := by simpa using hk
      subst hm
      simp only [List.map_cons, ampLoop, if_pos hmv]
      rw [ampLoop_const rest a (i : ℤ) (i + 1)
        (fun x hx => hmax x (List.mem_cons_of_mem a hx))]
      simp
    | succ k' =>
      have hak : rest.get? k' = some m := by simpa using hk
      have ha_lt : a < m := by
        apply hfirst
        rw [List.take_succ_cons]
        exact List.mem_cons_self a _
      have hmax' : ∀ x ∈ rest, x ≤ m := fun x hx =>
        hmax x (List.mem_cons_of_mem a hx)
      have hfirst' : ∀ x ∈ rest.take k', x < m := by
        intro x hx
        apply hfirst
        rw [List.take_succ_cons]
        exact List.mem_cons_of_mem a hx
      simp only [List.map_cons, ampLoop]
      by_cases hcond : mv < a
      · rw [if_pos hcond, ih k' a (i : ℤ) (i + 1) hak hmax' hfirst' ha_lt]
        push_cast
        ring
      · rw [if_neg hcond, ih k' mv mi (i + 1) hak hmax' hfirst' hmv]
        push_cast
        ring

/-- Once the running minimum is at most every remaining score, the
`Phase.focus` loop never updates its index again. -/
lemma phaseLoop_const (l : List ℚ) (mv : ℚ) (mi : ℤ) (i : ℕ)
    (h : ∀ x ∈ l, mv ≤ x) : phaseLoop (l.map some) mv mi i = mi := by
  induction l generalizing i with
  | nil => rfl
  | cons a rest ih =>
    simp only [List.map_cons, phaseLoop]
    rw [if_neg (not_lt.mpr (h a (List.mem_cons_self a rest)))]
    exact ih (i + 1) (fun x hx => h x (List.mem_cons_of_mem a hx))

/-- The `Phase.focus` loop lands on the first index attaining the minimal
score, provided the running minimum starts above it. -/
lemma phaseLoop_first_min (l : List ℚ) (k : ℕ) (m mv : ℚ) (mi : ℤ) (i : ℕ)
    (hk : l.get? k = some m) (hmin : ∀ x ∈ l, m ≤ x)
    (hfirst : ∀ x ∈ l.take k, m < x) (hmv : m < mv) :
    phaseLoop (l.map some) mv mi i = (i : ℤ) + (k : ℤ) := by
  induction l generalizing k mv mi i with
  | nil => simp at hk
  | cons a rest ih =>
    cases k with
    | zero =>
      have hm : a = m := by simpa using hk
      subst hm
      simp only [List.map_cons, phaseLoop, if_pos hmv]
      rw [phaseLoop_const rest a (i : ℤ) (i + 1)
        (fun x hx => hmin x (List.mem_cons_of_mem a hx))]
      simp
    | succ k' =>
      have hak : rest.get? k' = some m := by simpa using hk
      have ha_gt : m < a := by
        apply hfirst
        rw [List.take_succ_cons]
        exact List.mem_cons_self a _
      have hmin' : ∀ x ∈ rest, m ≤ x := fun x hx =>
        hmin x (List.mem_cons_of_mem a hx)
      have hfirst' : ∀ x ∈ rest.take k', m < x := by
        intro x hx
        apply hfirst
        rw [List.take_succ_cons]
        exact List.mem_cons_of_mem a hx
      simp only [List.map_cons, phaseLoop]
      by_cases hcond : a < mv
      · rw [if_pos hcond, ih k' a (i : ℤ) (i + 1) hak hmin' hfirst' ha_gt]
        push_cast
        ring
      · rw [if_neg hcond, ih k' mv mi (i + 1) hak hmin' hfirst' hmv]
        push_cast
        ring

/-- The ratio-test loop is a filter. -/
lemma good_matches_eq_filter (ms : List MatchPair) :
    good_matches ms = ms.filter (fun m => decide (m.best < 7 / 10 * m.second)) := by
  induction ms with
  | nil => rfl
  | cons a rest ih =>
    simp only [good_matches, List.filter, ih]
    by_cases h : a.best < 7 / 10 * a.second <;> simp [h]

/-- When the first matrix coefficient `a = mx/sx` is non-zero, the
`scaling.py` decomposition collapses: `M = √(a² + c²)`, so `b = -c` and
`d = a`, i.e. the assembled matrix is the similarity `[[a, -c], [c, a]]`. -/
lemma complex_mk_re (x y : ℝ) : (⟨x, y⟩ : ℂ).re = x := rfl

lemma complex_mk_im (x y : ℝ) : (⟨x, y⟩ : ℂ).im = y := rfl

lemma assembled_of_a_ne_zero (mx my sx : ℝ) (ha : mx / sx ≠ 0) :
    assembled mx my sx = ⟨mx / sx, -(my / sx), my / sx, mx / sx⟩ := by
  have hz : (⟨mx / sx, my / sx⟩ : ℂ) ≠ 0 := by
    intro h
    exact ha (by simpa [complex_mk_re] using congrArg Complex.re h)
  have habs : Complex.abs ⟨mx / sx, my / sx⟩ ≠ 0 := Complex.abs.ne_zero_iff.mpr hz
  have hsx : sx ≠ 0 := by
    intro h
    exact ha (by simp [h])
  have hmx : mx ≠ 0 := by
    intro h
    exact ha (by simp [h])
  unfold assembled M_coef theta_coef a_coef c_coef arctan2
  rw [Complex.cos_arg hz, Complex.sin_arg]
  simp only [complex_mk_re, complex_mk_im]
  have hM : mx / sx / (mx / sx / Complex.abs ⟨mx / sx, my / sx⟩) =
      Complex.abs ⟨mx / sx, my / sx⟩ := by
    rw [div_div_eq_mul_div, mul_div_cancel_left₀ _ ha]
  rw [hM]
  simp only [Mat2.mk.injEq, true_and, and_true]
  constructor
  · field_simp
    ring
  · field_simp
    ring

/-- When `a = mx/sx` is zero, `M = 0 / cos(theta) = 0` and the `b` and `d`
entries both collapse to zero, leaving the singular matrix
`[[0, 0], [c, 0]]` (in floating point this is the `0/0 → nan` case). -/
lemma assembled_of_a_eq_zero (mx my sx : ℝ) (ha : mx / sx = 0) :
    assembled mx my sx = ⟨0, 0, my / sx, 0⟩ := by
  unfold assembled M_coef theta_coef a_coef c_coef arctan2
  rw [ha]
  simp


/-! ## Claim theorems -/

/-- C1: the claim says a sweep with zero scorable frames fails with
`AcquisitionError`/`NoValidFocusError` and never returns a sentinel
position.  The code has no such errors: with an empty capture list (or
with every frame excluded) `max_index`/`min_index` stays `-1` and both
`Amplitude.focus` and `Phase.focus` return the sentinel position
`start + step * (-1) = start - step`, treated as a valid focus result. -/
theorem C1_sentinel_focus (start step : ℚ) :
    amplitudeFocusPos start step [] = start - step ∧
    amplitudeFocusPos start step [none, none, none] = start - step ∧
    phaseFocusPos start step [] = start - step := by
  refine ⟨?_, ?_, ?_⟩ <;>
    simp only [amplitudeFocusPos, phaseFocusPos, ampLoop, phaseLoop] <;>
    push_cast <;> ring

/-- C2: the claim says the axis reaches each commanded position before that
position's frame is captured (and that the axis is first moved to
`start`).  In the code each loop iteration captures *first* and only then
moves to that iteration's `z_val`: on the sweep `0..3` step `1` the frame
recorded against `z = 1` is captured with the axis still at `0` (in the
`Autofocus.py` revision there is additionally no initial move to `start`,
so the first frame is captured at the pre-scan position, here `7`). -/
theorem C2_capture_before_move :
    zscan_lower 0 3 1 (fun _ => true) = [(0, 0), (0, 1), (1, 2)] ∧
    zscan_capital 7 0 3 1 (fun _ => true) = [(7, 0), (0, 1), (1, 2)] ∧
    ¬ (∀ p ∈ zscan_lower 0 3 1 (fun _ => true), p.1 = p.2) := by
  have h1 : zscan_lower 0 3 1 (fun _ => true) = [(0, 0), (0, 1), (1, 2)] := by
    rw [zscan_lower, arange_0_3_1]
    norm_num [zscanLoop]
  have h2 : zscan_capital 7 0 3 1 (fun _ => true) = [(7, 0), (0, 1), (1, 2)] := by
    rw [zscan_capital, arange_0_3_1]
    norm_num [zscanLoop]
  refine ⟨h1, h2, ?_⟩
  intro hall
  have h01 := hall (0, 1) (by rw [h1]; norm_num)
  norm_num at h01

/-- C3 counterexample: the claim says the sweep from 1000 to 1010 with
step 1 visits 11 positions; `np.arange` is end-exclusive, so it visits
exactly 10. -/
theorem C3_counterexample :
    (arange 1000 1010 1).length = 10 ∧ (arange 1000 1010 1).length ≠ 11 := by
  constructor
  · rw [arange_1000_1010_1]
    rfl
  · rw [arange_1000_1010_1]
    norm_num

/-- C3 (amended): the sweep from z=1000 to z=1010 with step 1 visits 10
positions (end-exclusive), and with its 10 captured frames scoring
`[2,3,5,9,4,2,1,1,1,1]` the Maximize strategy returns
`1000 + 1·3 = 1003`, the position of the global maximum at index 3. -/
theorem C3_maximize_example :
    (arange 1000 1010 1).length = 10 ∧
    amplitudeFocusPos 1000 1 ([2, 3, 5, 9, 4, 2, 1, 1, 1, 1].map some) = 1003 := by
  constructor
  · rw [arange_1000_1010_1]
    rfl
  · norm_num [amplitudeFocusPos, ampLoop]

/-- C4 counterexample: the claim quantifies over every invertible 2×2
matrix `A`.  For the invertible diagonal `A = [[1,0],[0,2]]` (det 2), the
x-move sample with `sx = 1` measures `(1·1, 0·1)`; the assembly recovers
the identity matrix, whose `d` entry is 1 ≠ 2, and applying
`predict_stage_movement` to the measured delta `A·(0,1) = (0,2)` returns
`(0,2)`, not the commanded `(0,1)` — the round trip fails. -/
theorem C4_counterexample :
    (Mat2.mk 1 0 0 2).det = 2 ∧
    assembled 1 0 1 = ⟨1, 0, 0, 1⟩ ∧
    (1 : ℝ) ≠ 2 ∧
    predict_stage_movement ⟨1, 0, 0, 1⟩ 0 2 = (0, 2) ∧
    ((0 : ℝ), (2 : ℝ)) ≠ ((0 : ℝ), (1 : ℝ)) := by
  refine ⟨by norm_num [Mat2.det], ?_, by norm_num, ?_, by norm_num⟩
  · have h := assembled_of_a_ne_zero 1 0 1 (by norm_num)
    norm_num at h
    exact h
  · norm_num [predict_stage_movement, Mat2.inv, Mat2.det]

/-- C4 (amended): restricted to similarity matrices
`A = [[p,-q],[q,p]]` with `p ≠ 0` — exactly the family the single-sample
decomposition of `scaling.py` can represent — the assembly recovers `A`
from the noiseless x-move sample `measured = A·(sx, 0)` exactly, and
`predict_stage_movement` maps the measured delta of any commanded
`(u, v)` back to `(u, v)` exactly. -/
theorem C4_similarity_roundtrip (p q sx u v : ℝ) (hp : p ≠ 0) (hsx : sx ≠ 0) :
    assembled (p * sx) (q * sx) sx = ⟨p, -q, q, p⟩ ∧
    predict_stage_movement (assembled (p * sx) (q * sx) sx)
      (p * u - q * v) (q * u + p * v) = (u, v) := by
  have h1 : p * sx / sx = p := mul_div_cancel_right₀ p hsx
  have h2 : q * sx / sx = q := mul_div_cancel_right₀ q hsx
  have hA := assembled_of_a_ne_zero (p * sx) (q * sx) sx (by rw [h1]; exact hp)
  rw [h1, h2] at hA
  refine ⟨hA, ?_⟩
  rw [hA]
  have hΔ : p ^ 2 + q ^ 2 ≠ 0 := by
    have hpos : 0 < p ^ 2 + q ^ 2 := by
      have h1 : 0 < p ^ 2 := by
        rw [sq]
        exact mul_self_pos.mpr hp
      nlinarith [sq_nonneg q]
    exact ne_of_gt hpos
  have hd : Mat2.det ⟨p, -q, q, p⟩ = p ^ 2 + q ^ 2 := by
    simp only [Mat2.det]
    ring
  simp only [predict_stage_movement, Mat2.inv, hd, Prod.mk.injEq]
  constructor
  · field_simp
    ring
  · field_simp
    ring

/-- C4 witness: the amended theorem at the concrete similarity
`p = 3, q = 4` with `sx = 2`, commanded delta `(1, 5)`. -/
theorem C4_witness :
    assembled (3 * 2) (4 * 2) 2 = ⟨3, -4, 4, 3⟩ ∧
    predict_stage_movement (assembled (3 * 2) (4 * 2) 2)
      (3 * 1 - 4 * 5) (4 * 1 + 3 * 5) = (1, 5) :=
  ⟨(C4_similarity_roundtrip 3 4 2 1 5 (by norm_num) (by norm_num)).1,
   (C4_similarity_roundtrip 3 4 2 1 5 (by norm_num) (by norm_num)).2⟩

/-- C5 counterexample: the claim says a transform with zero determinant is
never returned (`SingularTransformError` instead).  With measured pixel
displacement `(0, 0)` for the stage shift 200, the assembly produces the
zero matrix — determinant 0 — and returns it; no determinant check and no
`SingularTransformError`/`InsufficientCalibrationDataError` exist in the
code. -/
theorem C5_counterexample :
    assembled 0 0 200 = ⟨0, 0, 0, 0⟩ ∧ (assembled 0 0 200).det = 0 := by
  have h := assembled_of_a_eq_zero 0 0 200 (by norm_num)
  norm_num at h
  refine ⟨h, ?_⟩
  rw [h]
  norm_num [Mat2.det]

/-- C5 (amended): the assembled calibration matrix is invertible exactly
when the `a` coefficient (measured x pixel shift over stage x shift) is
non-zero; the code never checks this, so for `a = 0` a singular matrix is
produced and handed on (its inversion would only fail later, inside
`np.linalg.inv` in `predict_stage_movement`). -/
theorem C5_invertible_iff (mx my sx : ℝ) :
    (assembled mx my sx).det ≠ 0 ↔ mx / sx ≠ 0 := by
  by_cases ha : mx / sx = 0
  · rw [assembled_of_a_eq_zero mx my sx ha]
    simp [Mat2.det, ha]
  · rw [assembled_of_a_ne_zero mx my sx ha]
    simp only [Mat2.det]
    constructor
    · intro _
      exact ha
    · intro _
      have hpos : 0 < mx / sx * (mx / sx) + my / sx * (my / sx) :=
        add_pos_of_pos_of_nonneg (mul_self_pos.mpr ha) (mul_self_nonneg _)
      have heq : mx / sx * (mx / sx) - -(my / sx) * (my / sx) =
          mx / sx * (mx / sx) + my / sx * (my / sx) := by ring
      rw [heq]
      exact ne_of_gt hpos

/-- C6 counterexample: the claim says a target that cannot be relocated
after the move raises `CellLostError`.  When `find_cell_center` returns
`None`, `acquire_cell` returns normally (`Except.ok`) with the first
capture and the once-moved stage — no exception of any kind. -/
theorem C6_counterexample :
    acquire_cell (fun _ => (0 : ℕ)) (fun _ => none) (fun i => i) ⟨0, 0⟩ (100, 100) =
      Except.ok (0, ⟨72, 93 / 2⟩) := by
  norm_num [acquire_cell, firstMove, calculate_pixel_distance]

/-- C6 (amended): when the cell cannot be relocated after the first move
(`find_cell_center` returns `None`), `acquire_cell` silently skips the
single fine-tune correction and returns the cross-annotated first capture
with the stage at the first-move position; no `CellLostError` exists in
the code and nothing is retried. -/
theorem C6_lost_cell_silent {Img : Type} (capture : Stage2 → Img)
    (findCenter : Img → Option (ℤ × ℤ)) (drawCross : Img → Img)
    (st : Stage2) (coords : ℤ × ℤ)
    (h : findCenter (capture (firstMove st coords)) = none) :
    acquire_cell capture findCenter drawCross st coords =
      Except.ok (drawCross (capture (firstMove st coords)), firstMove st coords) := by
  simp only [acquire_cell, h]

/-- C6 witness: the amended theorem at a concrete instantiation (abstract
images as numbers, detector that never finds the cell). -/
theorem C6_witness :
    acquire_cell (fun _ => (5 : ℕ)) (fun _ => none) (fun i => i + 1) ⟨0, 0⟩ (100, 100) =
      Except.ok (6, ⟨72, 93 / 2⟩) := by
  have h := C6_lost_cell_silent (fun _ => (5 : ℕ)) (fun _ => none) (fun i => i + 1)
    ⟨0, 0⟩ (100, 100) rfl
  rw [h]
  norm_num [firstMove, calculate_pixel_distance]

/-- C7 counterexample: the claim says the estimator fails with
`RegistrationError` when the robust fit fails and never dereferences a
missing transform.  With 4 surviving matches and a fit returning `None`,
the code subscripts `None` (`M[0, 2]`) and dies with `TypeError`; with
only 3 surviving matches it dies inside `cv2.findHomography` with a raw
`cv2.error` — neither named error exists in the code. -/
theorem C7_counterexample :
    calculate_displacement (fun _ => none) [⟨1, 2⟩, ⟨1, 2⟩, ⟨1, 2⟩, ⟨1, 2⟩] =
      Except.error PyErr.typeError ∧
    calculate_displacement (fun _ => none) [⟨1, 2⟩, ⟨1, 2⟩] =
      Except.error (PyErr.cvError "findHomography: need at least 4 point pairs") := by
  constructor <;> norm_num [calculate_displacement, good_matches]

/-- C7 (amended): the 0.7 ratio test is exactly as specified (a match
survives iff its best distance is strictly below 0.7× the second best),
but the failure modes are unhandled builtin errors: fewer than 4
surviving matches crash inside `cv2.findHomography` (`cv2.error`), and a
failed robust fit (`None`) is dereferenced, raising `TypeError` — not
`InsufficientFeatureMatchesError`/`RegistrationError`. -/
theorem C7_error_paths (fit : List MatchPair → Option Hom) (ms : List MatchPair) :
    (∀ m, m ∈ good_matches ms ↔ m ∈ ms ∧ m.best < 7 / 10 * m.second) ∧
    ((good_matches ms).length < 4 →
      calculate_displacement fit ms =
        Except.error (PyErr.cvError "findHomography: need at least 4 point pairs")) ∧
    (4 ≤ (good_matches ms).length → fit (good_matches ms) = none →
      calculate_displacement fit ms = Except.error PyErr.typeError) := by
  refine ⟨?_, ?_, ?_⟩
  · intro m
    rw [good_matches_eq_filter, List.mem_filter]
    simp
  · intro h
    simp only [calculate_displacement, if_pos h]
  · intro h4 hn
    simp only [calculate_displacement, if_neg (not_lt.mpr h4), hn]

/-- C7 witness: the amended theorem applied at concrete match lists (one
surviving match → `cv2.error`; five surviving matches with a failed fit →
`TypeError`; ratio-test membership at a concrete match). -/
theorem C7_witness :
    ((⟨1, 3⟩ : MatchPair) ∈ good_matches [⟨1, 3⟩] ↔
      (⟨1, 3⟩ : MatchPair) ∈ [(⟨1, 3⟩ : MatchPair)] ∧ (1 : ℚ) < 7 / 10 * 3) ∧
    calculate_displacement (fun _ => none) [⟨1, 3⟩] =
      Except.error (PyErr.cvError "findHomography: need at least 4 point pairs") ∧
    calculate_displacement (fun _ => none) [⟨2, 9⟩, ⟨2, 9⟩, ⟨2, 9⟩, ⟨2, 9⟩, ⟨2, 9⟩] =
      Except.error PyErr.typeError :=
  ⟨(C7_error_paths (fun _ => none) [⟨1, 3⟩]).1 ⟨1, 3⟩,
   (C7_error_paths (fun _ => none) [⟨1, 3⟩]).2.1 (by norm_num [good_matches]),
   (C7_error_paths (fun _ => none) [⟨2, 9⟩, ⟨2, 9⟩, ⟨2, 9⟩, ⟨2, 9⟩, ⟨2, 9⟩]).2.2
     (by norm_num [good_matches]) rfl⟩

/-- C8: the claim says compensating before any model fit fails with an
explicit not-calibrated signal.  `__init__` never assigns
`x_model`/`y_model` (and `calibrate` never fits them), so the guard's own
attribute read `self.x_model` raises `AttributeError` — an unrelated
builtin exception, not the intended `ValueError` ("Compensator not
calibrated"), and the error path returns no mutated state. -/
theorem C8_attribute_error (opt : ((ℚ × ℚ) → ℚ) → (ℚ × ℚ) → ℚ × ℚ)
    (target_dx target_dy : ℚ) :
    compensate_movement opt CellAcq.init target_dx target_dy =
      Except.error (PyErr.attributeError "x_model") ∧
    PyErr.attributeError "x_model" ≠
      PyErr.valueError "Compensator not calibrated. Run calibrate() first." :=
  ⟨rfl, by simp⟩

/-- C9 counterexample: the claim quantifies over every score sequence with
a tied extremum.  `Phase.focus` initializes `min_var` to `1e10`; a frame
such as pixels `[0, 4·10^10]` scores exactly `2·10^10 ≥ 1e10`, so with two
such frames (tied minimal score, earliest index 0) the strict comparison
never fires and the loop returns the sentinel position
`start + step·(-1) = -1`, not the earliest tied position `0`. -/
theorem C9_counterexample :
    normVar [0, 4 * 10 ^ 10] = 2 * 10 ^ 10 ∧
    phaseFocusPos 0 1 [some (2 * 10 ^ 10), some (2 * 10 ^ 10)] = -1 ∧
    (-1 : ℚ) ≠ 0 := by
  refine ⟨by norm_num [normVar, pixelVar, pixelMean], ?_, by norm_num⟩
  norm_num [phaseFocusPos, phaseLoop]

/-- C9 (amended): ties resolve to the earliest index in both strategies
*provided* the extremal score beats the loop initializer — strictly above
`-1` for Maximize, strictly below `1e10` for Minimize.  Under those side
conditions, each strategy returns `start + step·k` for `k` the earliest
index attaining the extremum (in particular the earliest of any tied
records). -/
theorem C9_earliest_extremum (start step : ℚ) (xs ys : List ℚ) (kM kP : ℕ) (mM mP : ℚ)
    (hxk : xs.get? kM = some mM) (hxmax : ∀ x ∈ xs, x ≤ mM)
    (hxfirst : ∀ x ∈ xs.take kM, x < mM) (hxm : -1 < mM)
    (hyk : ys.get? kP = some mP) (hymin : ∀ y ∈ ys, mP ≤ y)
    (hyfirst : ∀ y ∈ ys.take kP, mP < y) (hym : mP < 10 ^ 10) :
    amplitudeFocusPos start step (xs.map some) = start + step * (kM : ℚ) ∧
    phaseFocusPos start step (ys.map some) = start + step * (kP : ℚ) := by
  constructor
  · rw [amplitudeFocusPos, ampLoop_first_max xs kM mM (-1) (-1) 0 hxk hxmax hxfirst hxm]
    push_cast
    ring
  · rw [phaseFocusPos, phaseLoop_first_min ys kP mP (10 ^ 10) (-1) 0 hyk hymin hyfirst hym]
    push_cast
    ring

/-- C9 witness: the amended theorem on `[5,9,9,2]` (maximum 9 tied at
indices 1 and 2 → index 1) and `[3,1,1,4]` (minimum 1 tied at indices 1
and 2 → index 1). -/
theorem C9_witness :
    amplitudeFocusPos 100 2 ([5, 9, 9, 2].map some) = 100 + 2 * ((1 : ℕ) : ℚ) ∧
    phaseFocusPos 100 2 ([3, 1, 1, 4].map some) = 100 + 2 * ((1 : ℕ) : ℚ) :=
  C9_earliest_extremum 100 2 [5, 9, 9, 2] [3, 1, 1, 4] 1 1 9 1
    (by rfl) (by norm_num) (by norm_num [List.take_succ_cons]) (by norm_num)
    (by rfl) (by norm_num) (by norm_num [List.take_succ_cons]) (by norm_num)

/-- C10 counterexample: the claim says the assembled matrix always
satisfies `b = -c` and `d = a`.  At measured shift `(0, 1)` with stage
shift 1, `a = 0` makes `cos(theta) = 0` and `M = 0/0`, which the exact
embedding evaluates to 0 (floating point produces `nan`): the matrix is
`[[0,0],[1,0]]` with `b = 0 ≠ -1 = -c`, and it is singular even though
the measured displacement `(0, 1)` is non-zero. -/
theorem C10_counterexample :
    (assembled 0 1 1).b = 0 ∧ (assembled 0 1 1).c = 1 ∧
    (assembled 0 1 1).b ≠ -((assembled 0 1 1).c) ∧
    (assembled 0 1 1).det = 0 ∧ ¬((0 : ℝ) = 0 ∧ (1 : ℝ) = 0) := by
  have h := assembled_of_a_eq_zero 0 1 1 (by norm_num)
  norm_num at h
  rw [h]
  norm_num [Mat2.det]

/-- C10 (amended): whenever the `a` coefficient (measured x shift over
stage shift) is non-zero, the assembled matrix is the similarity
`[[a,-c],[c,a]]`: `b = -c`, `d = a`, its determinant is `a² + c²`, and it
is never singular. -/
theorem C10_similarity_structure (mx my sx : ℝ) (ha : mx / sx ≠ 0) :
    (assembled mx my sx).b = -((assembled mx my sx).c) ∧
    (assembled mx my sx).d = (assembled mx my sx).a ∧
    (assembled mx my sx).det =
      (assembled mx my sx).a * (assembled mx my sx).a +
        (assembled mx my sx).c * (assembled mx my sx).c ∧
    (assembled mx my sx).det ≠ 0 := by
  rw [assembled_of_a_ne_zero mx my sx ha]
  have hpos : 0 < mx / sx * (mx / sx) + my / sx * (my / sx) :=
    add_pos_of_pos_of_nonneg (mul_self_pos.mpr ha) (mul_self_nonneg _)
  have heq : mx / sx * (mx / sx) - -(my / sx) * (my / sx) =
      mx / sx * (mx / sx) + my / sx * (my / sx) := by ring
  refine ⟨rfl, rfl, ?_, ?_⟩
  · simp only [Mat2.det]
    ring
  · simp only [Mat2.det]
    rw [heq]
    exact ne_of_gt hpos

/-- C10 witness: the amended theorem at measured shift `(3, 4)` and stage
shift 1. -/
theorem C10_witness :
    (assembled 3 4 1).b = -((assembled 3 4 1).c) ∧
    (assembled 3 4 1).d = (assembled 3 4 1).a ∧
    (assembled 3 4 1).det =
      (assembled 3 4 1).a * (assembled 3 4 1).a +
        (assembled 3 4 1).c * (assembled 3 4 1).c ∧
    (assembled 3 4 1).det ≠ 0 :=
  C10_similarity_structure 3 4 1 (by norm_num)
